import Mathlib

/-!
Shallow embedding of the training orchestration of `TTS/bin/train_glow_tts.py`
and of the model head `models/tacotron.py`, with theorems settling the claims
about data-dependent initialization, error handling, checkpoint writes,
restore semantics, CLI continuation and speaker-embedding state hygiene.

Control flow that matters to the claims is embedded as pure functions that
return the ordered list of observable events a process emits (forward passes,
optimizer steps, checkpoint writes), or explicit `Except` values where the
Python code can raise.  Helpers of the repository that are imported by the
training script but whose source is not part of the two files under scrutiny
(`GlowTTSLoss`, `check_update`, `save_best_model`, `set_init_dict`) are
modelled from the specification and marked as such in their doc comments.
-/

/-- Observable events emitted by one training process, in program order.
`ddiForward` is the forward pass executed inside `torch.no_grad()` by
`data_depended_init` (train_glow_tts.py lines 156-166); `fatalAbort` is the
fatal training error the loss criterion raises on a non-finite total loss,
which propagates and aborts the run. -/
inductive Ev
  | ddiForward
  | schedStep
  | zeroGrad
  | trainForward
  | computeLoss (finite : Bool)
  | backward
  | clipGrads
  | optStep
  | ckptSave
  | bestSave
  | evalForward
  | fatalAbort
deriving DecidableEq, Repr

/-- The configuration fields of the global config `c` that the embedded
slice of the training loop reads. -/
structure TrainCfg where
  noam_schedule : Bool
  checkpoint : Bool
  save_step : Nat
deriving DecidableEq, Repr

/-- `data_depended_init` (train_glow_tts.py lines 142-176): sets the ddi
flags, then iterates the data loader but executes `break` after the first
batch, so under `torch.no_grad()` exactly one forward pass runs when the
loader is non-empty, and none otherwise; the ddi flags are then unset.  The
loader is embedded as the list of batches it yields. -/
def data_depended_init_trace : List Unit → List Ev
  | [] => []
  | _ :: _ => [Ev.ddiForward]

/-- One iteration of the loop body of `train` (train_glow_tts.py lines
191-315), after `global_step` has been incremented to `step`: optional
scheduler step, `optimizer.zero_grad()`, forward pass, then the loss
computation `criterion(...)` at line 212.  The criterion `GlowTTSLoss`
(TTS.tts.layers.losses, not under src/) is modelled from the spec: "losses
must be finite; a non-finite total loss should abort the step rather than
corrupt optimizer state (propagate as a fatal training error)" — so when
the batch's total loss is non-finite (`lossFinite = false`) the step raises
a fatal training error at the loss computation and nothing after it runs.
On a finite loss the step proceeds: backward pass, gradient clipping
(`check_update`, TTS.utils.training, not under src/, modelled from the
spec as gradient-norm clipping with stopnet parameters excluded, returning
a norm and a skip flag), then `optimizer.step()`.  Under
`if args.rank == 0`, every `save_step` steps and when `c.checkpoint` is
set, `save_checkpoint` writes into the output directory. -/
def trainStepTrace (cfg : TrainCfg) (rank step : Nat) (lossFinite : Bool) : List Ev :=
  (if cfg.noam_schedule then [Ev.schedStep] else []) ++
  [Ev.zeroGrad, Ev.trainForward, Ev.computeLoss lossFinite] ++
  (if lossFinite then
    [Ev.backward, Ev.clipGrads, Ev.optStep] ++
    (if rank = 0 then
      (if step % cfg.save_step = 0 && cfg.checkpoint then [Ev.ckptSave] else [])
     else [])
   else [Ev.fatalAbort])

/-- The loop of `train` over the epoch's batches, threading `global_step`;
each batch carries the finiteness of the loss it produces.  Returns the
emitted events, the final `global_step`, and whether a fatal training
error aborted the loop: after a non-finite loss the raised error
propagates, so no further batch is processed. -/
def trainTrace (cfg : TrainCfg) (rank : Nat) : Nat → List Bool → List Ev × Nat × Bool
  | g, [] => ([], g, false)
  | g, b :: bs =>
    let stepEvs := trainStepTrace cfg rank (g + 1) b
    if b then
      let rest := trainTrace cfg rank (g + 1) bs
      (stepEvs ++ rest.1, rest.2.1, rest.2.2)
    else
      (stepEvs, g + 1, true)

/-- `evaluate` (train_glow_tts.py lines 330-481) runs under
`@torch.no_grad()`: per eval batch one forward pass and no optimizer
activity. -/
def evalTrace (numEvalBatches : Nat) : List Ev :=
  List.replicate numEvalBatches Ev.evalForward

/-- Per-epoch data consumed by the embedded main loop: the training batches
(with the finiteness of each step's loss), the number of eval batches, and
the epoch's target loss compared against the best loss so far. -/
structure EpochData where
  batches : List Bool
  evalBatches : Nat
  targetLoss : Int
deriving DecidableEq, Repr

/-- `save_best_model` (TTS.tts.utils.io, not under src/).  Modelled from the
spec: after each epoch the target loss is compared against the best-seen
loss and the "best" checkpoint is overwritten only when the loss improved.
`best = none` is the initial `float('inf')`.  The spec gives it no rank
logic, and its call site in `main` (train_glow_tts.py line 593) carries no
rank guard. -/
def save_best_model (targetLoss : Int) (best : Option Int) : List Ev × Option Int :=
  let improved : Bool := match best with
    | none => true
    | some b => decide (targetLoss < b)
  if improved then ([Ev.bestSave], some targetLoss) else ([], best)

/-- The epoch loop of `main` (train_glow_tts.py lines 583-594): `train`,
then `evaluate`, then `save_best_model` — the latter called on every rank.
A fatal training error raised inside `train` propagates out of the epoch
loop (it is only caught by the top-level handler of `__main__`), so the
trace ends with it. -/
def mainLoopTrace (cfg : TrainCfg) (rank : Nat) :
    Nat → Option Int → List EpochData → List Ev
  | _, _, [] => []
  | g, best, ed :: rest =>
    let tr := trainTrace cfg rank g ed.batches
    if tr.2.2 then tr.1
    else
      let sb := save_best_model ed.targetLoss best
      tr.1 ++ evalTrace ed.evalBatches ++ sb.1 ++
        mainLoopTrace cfg rank tr.2.1 sb.2 rest

/-- The tail of `main` (train_glow_tts.py lines 574-594): `global_step` is
set to the restored step, `data_depended_init` runs iff that step is 0
(lines 576-577), then the epoch loop runs. -/
def mainTrace (cfg : TrainCfg) (rank restoreStep : Nat)
    (ddiBatches : List Unit) (epochs : List EpochData) : List Ev :=
  (if restoreStep = 0 then data_depended_init_trace ddiBatches else []) ++
  mainLoopTrace cfg rank restoreStep none epochs

lemma ddiForward_not_mem_trainStepTrace (cfg : TrainCfg) (rank step : Nat)
    (b : Bool) : Ev.ddiForward ∉ trainStepTrace cfg rank step b := by
  unfold trainStepTrace
  intro h
  rcases List.mem_append.1 h with h1 | h1
  · rcases List.mem_append.1 h1 with h2 | h2
    · revert h2; split <;> simp
    · simp at h2
  · revert h1; split
    · intro h1
      rcases List.mem_append.1 h1 with h2 | h2
      · simp at h2
      · revert h2; split
        · split <;> simp
        · simp
    · simp

lemma ddiForward_not_mem_trainTrace (cfg : TrainCfg) (rank : Nat)
    (g : Nat) (bs : List Bool) : Ev.ddiForward ∉ (trainTrace cfg rank g bs).1 := by
  induction bs generalizing g with
  | nil => simp [trainTrace]
  | cons b bs ih =>
    simp only [trainTrace]
    split
    · simp only [List.mem_append]
      rintro (h | h)
      · exact ddiForward_not_mem_trainStepTrace cfg rank (g + 1) b h
      · exact ih (g + 1) h
    · exact ddiForward_not_mem_trainStepTrace cfg rank (g + 1) b

lemma ddiForward_not_mem_evalTrace (n : Nat) : Ev.ddiForward ∉ evalTrace n := by
  intro h
  have := (List.eq_of_mem_replicate h)
  simp at this

lemma ddiForward_not_mem_save_best (t : Int) (best : Option Int) :
    Ev.ddiForward ∉ (save_best_model t best).1 := by
  unfold save_best_model
  cases best with
  | none => simp
  | some b =>
    by_cases hb : t < b
    · simp [hb]
    · simp [hb]

lemma ddiForward_not_mem_mainLoopTrace (cfg : TrainCfg) (rank : Nat)
    (g : Nat) (best : Option Int) (epochs : List EpochData) :
    Ev.ddiForward ∉ mainLoopTrace cfg rank g best epochs := by
  induction epochs generalizing g best with
  | nil => simp [mainLoopTrace]
  | cons ed rest ih =>
    simp only [mainLoopTrace]
    split
    · exact ddiForward_not_mem_trainTrace cfg rank g ed.batches
    · simp only [List.mem_append]
      rintro (((h | h) | h) | h)
      · exact ddiForward_not_mem_trainTrace cfg rank g ed.batches h
      · exact ddiForward_not_mem_evalTrace ed.evalBatches h
      · exact ddiForward_not_mem_save_best ed.targetLoss best h
      · exact ih _ _ h

lemma optStep_not_mem_ddi (l : List Unit) :
    Ev.optStep ∉ data_depended_init_trace l := by
  cases l <;> simp [data_depended_init_trace]

/-- Claim C1: in `main`, `data_depended_init` runs if and only if the
restored global step is 0 — its single no-grad forward event appears exactly
once in a fresh run's trace and never when resuming from a non-zero step —
the initialization performs exactly one forward pass (and nothing else: no
backward, no optimizer activity) over the first batch, and no
`data_depended_init` forward occurs in the epoch loop, while no optimizer
step occurs during the initialization, so the initialization fully precedes
every optimizer step. -/
theorem ddi_iff_restore_step_zero (cfg : TrainCfg) (rank restoreStep : Nat)
    (ddiBatches : List Unit) (epochs : List EpochData)
    (h : ddiBatches ≠ []) :
    (mainTrace cfg rank restoreStep ddiBatches epochs).count Ev.ddiForward
      = (if restoreStep = 0 then 1 else 0) ∧
    data_depended_init_trace ddiBatches = [Ev.ddiForward] ∧
    Ev.optStep ∉ data_depended_init_trace ddiBatches ∧
    Ev.ddiForward ∉ mainLoopTrace cfg rank restoreStep none epochs := by
  have hddi : data_depended_init_trace ddiBatches = [Ev.ddiForward] := by
    cases ddiBatches with
    | nil => exact absurd rfl h
    | cons a l => rfl
  have hloop := ddiForward_not_mem_mainLoopTrace cfg rank restoreStep none epochs
  refine ⟨?_, hddi, optStep_not_mem_ddi ddiBatches, hloop⟩
  unfold mainTrace
  rw [List.count_append]
  have hzero : (mainLoopTrace cfg rank restoreStep none epochs).count Ev.ddiForward = 0 :=
    List.count_eq_zero.2 hloop
  rw [hzero]
  split
  · rw [hddi]; rfl
  · rfl

/-- Witness for `ddi_iff_restore_step_zero` at a concrete fresh run. -/
theorem ddi_iff_restore_step_zero_witness :
    (mainTrace ⟨false, true, 2⟩ 0 0 [()] [⟨[true], 1, 3⟩]).count Ev.ddiForward
      = (if (0 : Nat) = 0 then 1 else 0) ∧
    data_depended_init_trace [()] = [Ev.ddiForward] ∧
    Ev.optStep ∉ data_depended_init_trace [()] ∧
    Ev.ddiForward ∉ mainLoopTrace ⟨false, true, 2⟩ 0 0 none [⟨[true], 1, 3⟩] :=
  ddi_iff_restore_step_zero ⟨false, true, 2⟩ 0 0 [()] [⟨[true], 1, 3⟩] (by decide)

/-- Claim C2: for every training step whose computed total loss is
non-finite, the step aborts with a fatal training error raised at the loss
computation, before `optimizer.step()` is reached — the aborted step
contains no backward pass, no optimizer step and no checkpoint write, and
the error propagates so the remaining batches of the epoch are not
processed either; a step with a finite loss, by contrast, does reach
`optimizer.step()`. -/
theorem nonfinite_loss_aborts_before_optimizer_step
    (cfg : TrainCfg) (rank step g : Nat) (bs : List Bool) :
    Ev.fatalAbort ∈ trainStepTrace cfg rank step false ∧
    Ev.optStep ∉ trainStepTrace cfg rank step false ∧
    Ev.backward ∉ trainStepTrace cfg rank step false ∧
    Ev.ckptSave ∉ trainStepTrace cfg rank step false ∧
    (trainTrace cfg rank g (false :: bs)).1 = trainStepTrace cfg rank (g + 1) false ∧
    Ev.optStep ∈ trainStepTrace cfg rank step true := by
  refine ⟨?_, ?_, ?_, ?_, rfl, ?_⟩
  · unfold trainStepTrace
    apply List.mem_append.2; right; simp
  · unfold trainStepTrace
    intro h
    rcases List.mem_append.1 h with h1 | h1
    · rcases List.mem_append.1 h1 with h2 | h2
      · revert h2; split <;> simp
      · simp at h2
    · simp at h1
  · unfold trainStepTrace
    intro h
    rcases List.mem_append.1 h with h1 | h1
    · rcases List.mem_append.1 h1 with h2 | h2
      · revert h2; split <;> simp
      · simp at h2
    · simp at h1
  · unfold trainStepTrace
    intro h
    rcases List.mem_append.1 h with h1 | h1
    · rcases List.mem_append.1 h1 with h2 | h2
      · revert h2; split <;> simp
      · simp at h2
    · simp at h1
  · unfold trainStepTrace
    apply List.mem_append.2; right; simp

/-- Claim C3 (code evaluated at the failing input): a process of rank 1
(distributed mode) emits the best-loss checkpoint write at the end of the
first epoch — `save_best_model` is called at train_glow_tts.py line 593
without any rank guard, while the periodic `save_checkpoint` inside `train`
is correctly restricted to rank 0. -/
theorem rank_one_writes_best_checkpoint :
    Ev.bestSave ∈ mainTrace ⟨false, true, 10⟩ 1 7 [()] [⟨[true], 1, 3⟩] ∧
    (∀ step : Nat, ∀ lossFinite : Bool,
      Ev.ckptSave ∉ trainStepTrace ⟨false, true, 10⟩ 1 step lossFinite) := by
  constructor
  · decide
  · intro step lossFinite h
    unfold trainStepTrace at h
    rcases List.mem_append.1 h with h1 | h1
    · rcases List.mem_append.1 h1 with h2 | h2
      · revert h2; split <;> simp
      · simp at h2
    · revert h1; split
      · intro h1
        rcases List.mem_append.1 h1 with h2 | h2
        · simp at h2
        · revert h2; split
          · omega
          · simp
      · simp

/-- One entry of a model (or checkpoint) state dict: parameter name, tensor
shape, and an abstract value standing for the tensor contents. -/
structure Param where
  name : String
  shape : List Nat
  value : Int
deriving DecidableEq, Repr

/-- The structural skeleton of a state dict: its names and shapes. -/
def stateKeys (ps : List Param) : List (String × List Nat) :=
  ps.map fun p => (p.name, p.shape)

/-- Strict `torch.nn.Module.load_state_dict` (external collaborator): the
load succeeds and replaces every parameter exactly when the incoming dict
has the same names and shapes as the module, and raises otherwise. -/
def load_state_dict (current incoming : List Param) : Option (List Param) :=
  if stateKeys current = stateKeys incoming then some incoming else none

/-- Modelled from the spec: `set_init_dict` (TTS.utils.generic_utils, not
under src/) realises the partial load that "copies only parameters whose
name and shape match, leaving the rest at their freshly initialized
values".  `partialCopy` is its action on one fresh parameter. -/
def partialCopy (ckptDict : List Param) (p : Param) : Param :=
  match ckptDict.find? (fun q => q.name == p.name && q.shape == p.shape) with
  | some q => { p with value := q.value }
  | none => p

/-- Modelled from the spec: the partial state load applied to the whole
freshly initialized state dict. -/
def set_init_dict (modelDict ckptDict : List Param) : List Param :=
  modelDict.map (partialCopy ckptDict)

/-- The restore block of `main` (train_glow_tts.py lines 525-540): the try
body loads the optimizer state when `c.noam_schedule` is off (`optLoadOk`
says whether that load raises), raises when `c.reinit_layers` is set, then
attempts the full model load; any failure is caught by the bare `except`,
which performs the partial load and continues — no error escapes. -/
def restore_model_block (fresh ckptModel : List Param)
    (noam reinit optLoadOk : Bool) : List Param :=
  let tryResult : Option (List Param) :=
    if !noam && !optLoadOk then none
    else if reinit then none
    else load_state_dict fresh ckptModel
  match tryResult with
  | some loaded => loaded
  | none => set_init_dict fresh ckptModel

/-- Claim C4: a structural mismatch between the fresh model and the
checkpoint never aborts the restore — the block falls back to the partial
load, which returns a state dict of the same length in which every
parameter that has a name-and-shape match in the checkpoint takes the
checkpoint value and every other parameter keeps its freshly initialized
value, and training continues with that state. -/
theorem restore_mismatch_falls_back_to_partial_load
    (fresh ckptModel : List Param) (noam reinit optLoadOk : Bool)
    (hmis : stateKeys fresh ≠ stateKeys ckptModel) :
    restore_model_block fresh ckptModel noam reinit optLoadOk
        = set_init_dict fresh ckptModel ∧
    restore_model_block fresh ckptModel noam reinit optLoadOk
        = fresh.map (partialCopy ckptModel) ∧
    (restore_model_block fresh ckptModel noam reinit optLoadOk).length
        = fresh.length ∧
    (∀ p ∈ fresh,
      (∀ q, ckptModel.find? (fun q2 => q2.name == p.name && q2.shape == p.shape)
              = some q →
          partialCopy ckptModel p = { p with value := q.value }) ∧
      (ckptModel.find? (fun q2 => q2.name == p.name && q2.shape == p.shape)
              = none →
          partialCopy ckptModel p = p)) := by
  have hfall : restore_model_block fresh ckptModel noam reinit optLoadOk
      = set_init_dict fresh ckptModel := by
    unfold restore_model_block
    cases noam <;> cases reinit <;> cases optLoadOk <;>
      simp [load_state_dict, hmis]
  refine ⟨hfall, ?_, ?_, ?_⟩
  · rw [hfall]; rfl
  · rw [hfall]; simp [set_init_dict]
  · intro p _
    constructor
    · intro q hq; simp [partialCopy, hq]
    · intro hq; simp [partialCopy, hq]

/-- Witness for `restore_mismatch_falls_back_to_partial_load` at a concrete
two-parameter model against a one-parameter checkpoint. -/
theorem restore_mismatch_falls_back_witness :
    restore_model_block
        [⟨"enc.w", [2], 5⟩, ⟨"dec.w", [3], 7⟩]
        [⟨"enc.w", [2], 9⟩] false false true
      = set_init_dict [⟨"enc.w", [2], 5⟩, ⟨"dec.w", [3], 7⟩]
          [⟨"enc.w", [2], 9⟩] :=
  (restore_mismatch_falls_back_to_partial_load
    [⟨"enc.w", [2], 5⟩, ⟨"dec.w", [3], 7⟩] [⟨"enc.w", [2], 9⟩]
    false false true (by decide)).1

/-- The outcome of synthesizing one test sentence: the body of the per-item
try block of `evaluate` either completes or raises. -/
inductive SynthOutcome
  | ok (audio : Int)
  | failed
deriving DecidableEq, Repr

/-- Observable events of the test-sentence loop of `evaluate`. -/
inductive EvalEv
  | savedTestAudio (idx : Nat)
  | loggedSynthError (idx : Nat)
deriving DecidableEq, Repr

/-- The try body at train_glow_tts.py lines 450-474: `synthesis` plus the
audio/figure saves, which raises when synthesis of the sentence fails. -/
def synthesizeAndSave (idx : Nat) : SynthOutcome → Except Unit EvalEv
  | .ok _ => .ok (.savedTestAudio idx)
  | .failed => .error ()

/-- One iteration of the loop: the bare `except` at lines 475-477 catches
the failure and prints the offending index, and the loop continues. -/
def testSentenceIter (idx : Nat) (o : SynthOutcome) : EvalEv :=
  match synthesizeAndSave idx o with
  | .ok e => e
  | .error _ => .loggedSynthError idx

/-- The `for idx, test_sentence in enumerate(test_sentences)` loop starting
from index `idx`. -/
def testSentencesFrom (idx : Nat) : List SynthOutcome → List EvalEv
  | [] => []
  | o :: os => testSentenceIter idx o :: testSentencesFrom (idx + 1) os

/-- The whole test-sentence loop of `evaluate` (lines 449-477). -/
def testSentencesTrace (outcomes : List SynthOutcome) : List EvalEv :=
  testSentencesFrom 0 outcomes

lemma testSentencesFrom_length (start : Nat) (os : List SynthOutcome) :
    (testSentencesFrom start os).length = os.length := by
  induction os generalizing start with
  | nil => rfl
  | cons o os ih => simp [testSentencesFrom, ih]

lemma testSentencesFrom_failed (start i : Nat) (os : List SynthOutcome)
    (h : os.get? i = some SynthOutcome.failed) :
    EvalEv.loggedSynthError (start + i) ∈ testSentencesFrom start os := by
  induction os generalizing start i with
  | nil => simp at h
  | cons o os ih =>
    cases i with
    | zero =>
      simp at h
      subst h
      simp [testSentencesFrom, testSentenceIter, synthesizeAndSave]
    | succ n =>
      simp only [List.get?] at h
      have := ih (start + 1) n h
      simp only [testSentencesFrom, List.mem_cons]
      right
      have harith : start + 1 + n = start + (n + 1) := by omega
      rw [harith] at this
      exact this

lemma testSentencesFrom_ok (start i : Nat) (a : Int) (os : List SynthOutcome)
    (h : os.get? i = some (SynthOutcome.ok a)) :
    EvalEv.savedTestAudio (start + i) ∈ testSentencesFrom start os := by
  induction os generalizing start i with
  | nil => simp at h
  | cons o os ih =>
    cases i with
    | zero =>
      simp at h
      subst h
      simp [testSentencesFrom, testSentenceIter, synthesizeAndSave]
    | succ n =>
      simp only [List.get?] at h
      have := ih (start + 1) n h
      simp only [testSentencesFrom, List.mem_cons]
      right
      have harith : start + 1 + n = start + (n + 1) := by omega
      rw [harith] at this
      exact this

/-- Claim C5: the test-sentence loop of `evaluate` processes every sentence
regardless of per-sentence failures — the emitted event list has one event
per sentence, every failing index is logged together with that index, and
every succeeding sentence (even one following a failure) still has its
audio persisted; no failure aborts the loop. -/
theorem synthesis_failures_are_isolated (outcomes : List SynthOutcome) :
    (testSentencesTrace outcomes).length = outcomes.length ∧
    (∀ i, outcomes.get? i = some SynthOutcome.failed →
      EvalEv.loggedSynthError i ∈ testSentencesTrace outcomes) ∧
    (∀ i a, outcomes.get? i = some (SynthOutcome.ok a) →
      EvalEv.savedTestAudio i ∈ testSentencesTrace outcomes) := by
  refine ⟨testSentencesFrom_length 0 outcomes, ?_, ?_⟩
  · intro i h
    have := testSentencesFrom_failed 0 i outcomes h
    simpa using this
  · intro i a h
    have := testSentencesFrom_ok 0 i a outcomes h
    simpa using this

/-- Witness for `synthesis_failures_are_isolated`: with the second of three
sentences failing, the loop logs index 1 and still saves sentence 2. -/
theorem synthesis_failures_are_isolated_witness :
    EvalEv.loggedSynthError 1 ∈
      testSentencesTrace [SynthOutcome.ok 3, SynthOutcome.failed, SynthOutcome.ok 4] ∧
    EvalEv.savedTestAudio 2 ∈
      testSentencesTrace [SynthOutcome.ok 3, SynthOutcome.failed, SynthOutcome.ok 4] :=
  ⟨(synthesis_failures_are_isolated
      [SynthOutcome.ok 3, SynthOutcome.failed, SynthOutcome.ok 4]).2.1 1 rfl,
   (synthesis_failures_are_isolated
      [SynthOutcome.ok 3, SynthOutcome.failed, SynthOutcome.ok 4]).2.2 2 4 rfl⟩

/-- How the call to `main` terminates, as seen by the `__main__` epilogue:
normal completion, a `KeyboardInterrupt`, or an `Exception`-derived
unhandled error. -/
inductive MainOutcome
  | completed
  | interrupted
  | raisedError
deriving DecidableEq, Repr

/-- The process state at exit: the exit code and whether
`remove_experiment_folder(OUT_PATH)` ran. -/
structure ShutdownResult where
  exitCode : Nat
  experimentFolderRemoved : Bool
deriving DecidableEq, Repr

/-- The `try/except` epilogue of `__main__` (train_glow_tts.py lines
675-686): `except KeyboardInterrupt` removes the experiment folder and
exits 0 (via `sys.exit(0)`, falling back to `os._exit(0)`);
`except Exception` removes the folder, prints the traceback and exits 1;
normal completion exits 0 without removing the folder. -/
def topLevelShutdown : MainOutcome → ShutdownResult
  | .completed => ⟨0, false⟩
  | .interrupted => ⟨0, true⟩
  | .raisedError => ⟨1, true⟩

/-- Claim C7: the training entry point exits with code 0 on a user
interrupt and with code 1 on any other unhandled exception, removing the
experiment output directory in both cases — and exit code 1 together with
folder removal happens exactly on the unhandled-error path. -/
theorem exit_codes_and_cleanup_on_shutdown :
    topLevelShutdown MainOutcome.interrupted = ⟨0, true⟩ ∧
    topLevelShutdown MainOutcome.raisedError = ⟨1, true⟩ ∧
    (∀ o : MainOutcome, (topLevelShutdown o).exitCode = 1 ↔ o = MainOutcome.raisedError) ∧
    (∀ o : MainOutcome,
      (topLevelShutdown o).experimentFolderRemoved = true ↔ o ≠ MainOutcome.completed) := by
  refine ⟨rfl, rfl, ?_, ?_⟩ <;> intro o <;> cases o <;> simp [topLevelShutdown]


/-- One file of the continuation folder, as seen by `glob` and
`os.path.getctime`: its path and its creation time. -/
structure DirEntry where
  name : String
  ctime : Nat
deriving DecidableEq, Repr

/-- `os.path.join` for the shapes used here (a non-empty directory joined
with a plain file name). -/
def osPathJoin (a b : String) : String :=
  if a = "" then b
  else if a.endsWith "/" then a ++ b
  else a ++ "/" ++ b

/-- `glob.glob(continue_path + "/*.pth.tar")`: the folder entries whose
name matches `*.pth.tar`. -/
def globPthTar (entries : List DirEntry) : List DirEntry :=
  entries.filter (fun e => e.name.endsWith ".pth.tar")

/-- Python `max(list_of_files, key=os.path.getctime)`: the first entry of
maximal creation time, raising `ValueError` on an empty list. -/
def pyMaxByCtime : List DirEntry → Except String DirEntry
  | [] => .error "ValueError: max() arg is an empty sequence"
  | e :: es => .ok (es.foldl (fun acc x => if acc.ctime < x.ctime then x else acc) e)

/-- The `argparse` results the continuation logic reads and rewrites. -/
structure CliArgs where
  continue_path : String
  config_path : String
  restore_path : String
deriving DecidableEq, Repr

/-- The `if args.continue_path != ''` block of `__main__`
(train_glow_tts.py lines 633-639): the config path is forced to
`<continue_path>/config.json`, and the restore path is set to the
`*.pth.tar` file of the folder with the latest creation time; with no such
file, `max([])` raises an unhandled `ValueError`. -/
def applyContinuePath (args : CliArgs) (entries : List DirEntry) :
    Except String CliArgs :=
  if args.continue_path ≠ "" then
    match pyMaxByCtime (globPthTar entries) with
    | .ok latest =>
        .ok { args with
                config_path := osPathJoin args.continue_path "config.json",
                restore_path := latest.name }
    | .error e => .error e
  else .ok args

/-- Whether start-up survived the continuation logic. -/
def continuationOk (r : Except String CliArgs) : Bool :=
  match r with
  | .ok _ => true
  | .error _ => false

lemma foldlMax_spec (e : DirEntry) (es : List DirEntry) :
    (es.foldl (fun acc x => if acc.ctime < x.ctime then x else acc) e) ∈ e :: es ∧
    e.ctime ≤ (es.foldl (fun acc x => if acc.ctime < x.ctime then x else acc) e).ctime ∧
    ∀ f ∈ es,
      f.ctime ≤ (es.foldl (fun acc x => if acc.ctime < x.ctime then x else acc) e).ctime := by
  induction es generalizing e with
  | nil => exact ⟨by simp, le_refl _, by simp⟩
  | cons g gs ih =>
    simp only [List.foldl_cons]
    by_cases h : e.ctime < g.ctime
    · simp only [if_pos h]
      obtain ⟨hmem, hge, hall⟩ := ih g
      refine ⟨?_, ?_, ?_⟩
      · rcases List.mem_cons.1 hmem with h1 | h1
        · rw [h1]; simp
        · simp [h1]
      · omega
      · intro f hf
        rcases List.mem_cons.1 hf with h1 | h1
        · subst h1; omega
        · exact hall f h1
    · simp only [if_neg h]
      obtain ⟨hmem, hge, hall⟩ := ih e
      refine ⟨?_, hge, ?_⟩
      · rcases List.mem_cons.1 hmem with h1 | h1
        · rw [h1]; simp
        · simp [h1]
      · intro f hf
        rcases List.mem_cons.1 hf with h1 | h1
        · subst h1; omega
        · exact hall f h1

lemma pyMaxByCtime_spec (l : List DirEntry) (m : DirEntry)
    (h : pyMaxByCtime l = Except.ok m) :
    m ∈ l ∧ ∀ f ∈ l, f.ctime ≤ m.ctime := by
  cases l with
  | nil => simp [pyMaxByCtime] at h
  | cons e es =>
    simp only [pyMaxByCtime] at h
    have h' := Except.ok.inj h
    subst h'
    obtain ⟨hmem, hge, hall⟩ := foldlMax_spec e es
    refine ⟨hmem, ?_⟩
    intro f hf
    rcases List.mem_cons.1 hf with h1 | h1
    · subst h1; exact hge
    · exact hall f h1

/-- Claim C8: with a non-empty `--continue_path`, start-up ignores the
supplied `--config_path` (the result does not depend on it), reads the
configuration from `<continue_path>/config.json`, and sets the restore
checkpoint to a `*.pth.tar` entry of the folder whose creation time is
maximal among all `*.pth.tar` entries; when the folder has no `*.pth.tar`
file, start-up fails with an unhandled error instead of starting fresh. -/
theorem continue_path_resumes_from_latest_checkpoint
    (cp cfgA cfgB rp : String) (entries : List DirEntry) (hcp : cp ≠ "") :
    applyContinuePath ⟨cp, cfgA, rp⟩ entries
        = applyContinuePath ⟨cp, cfgB, rp⟩ entries ∧
    (globPthTar entries = [] →
      continuationOk (applyContinuePath ⟨cp, cfgA, rp⟩ entries) = false) ∧
    (∀ a, applyContinuePath ⟨cp, cfgA, rp⟩ entries = Except.ok a →
      a.continue_path = cp ∧
      a.config_path = osPathJoin cp "config.json" ∧
      ∃ e, e ∈ globPthTar entries ∧ e.name = a.restore_path ∧
        ∀ f ∈ globPthTar entries, f.ctime ≤ e.ctime) := by
  refine ⟨?_, ?_, ?_⟩
  · unfold applyContinuePath
    rw [if_pos hcp, if_pos hcp]
  · intro hnil
    unfold applyContinuePath
    rw [if_pos hcp, hnil]
    rfl
  · intro a ha
    unfold applyContinuePath at ha
    rw [if_pos hcp] at ha
    cases hm : pyMaxByCtime (globPthTar entries) with
    | error msg =>
      rw [hm] at ha
      exact absurd ha (by simp)
    | ok latest =>
      rw [hm] at ha
      have ha' := Except.ok.inj ha
      obtain ⟨hmem, hall⟩ := pyMaxByCtime_spec _ _ hm
      refine ⟨?_, ?_, latest, hmem, ?_, hall⟩ <;> rw [← ha']

/-- Witness for `continue_path_resumes_from_latest_checkpoint` at a folder
holding two checkpoints and one unrelated file: the supplied config path is
irrelevant to the result. -/
theorem continue_path_resumes_witness :
    applyContinuePath ⟨"out/run1", "other.json", ""⟩
        [⟨"out/run1/a.pth.tar", 5⟩, ⟨"out/run1/b.pth.tar", 9⟩, ⟨"out/run1/c.txt", 100⟩]
      = applyContinuePath ⟨"out/run1", "given.json", ""⟩
        [⟨"out/run1/a.pth.tar", 5⟩, ⟨"out/run1/b.pth.tar", 9⟩, ⟨"out/run1/c.txt", 100⟩] :=
  (continue_path_resumes_from_latest_checkpoint "out/run1" "other.json" "given.json" ""
    [⟨"out/run1/a.pth.tar", 5⟩, ⟨"out/run1/b.pth.tar", 9⟩, ⟨"out/run1/c.txt", 100⟩]
    (by decide)).1

/-- The state of the `NoamLR` scheduler as constructed in `main`
(train_glow_tts.py lines 561-564). -/
structure NoamState where
  warmup_steps : Nat
  last_epoch : Int
deriving DecidableEq, Repr

/-- What the restore branch of `main` leaves behind for the optimizer and
scheduler. -/
structure OptRestoreResult where
  optimizerLoaded : Bool
  initial_lrs : List Int
  restore_step : Nat
  scheduler : Option NoamState
deriving DecidableEq, Repr

/-- The optimizer/scheduler side of the restore branch of `main`
(train_glow_tts.py lines 525-549 and 561-566), taken with a non-empty
`--restore_path`.  Inside the try block, `optimizer.load_state_dict` runs
only under `if not c.noam_schedule` (`optLoadOk` says whether that load
raises; torch's load is taken as atomic); the bare `except` performs the
partial model load and leaves the optimizer untouched.  After the
try/except, every param group's `initial_lr` is set to `c.lr`
(`ngroups` groups), `args.restore_step` is set to the checkpoint's step,
and when `c.noam_schedule` is on, `NoamLR` is constructed with
`last_epoch = args.restore_step - 1`. -/
def mainOptimizerRestore (noam optLoadOk : Bool)
    (ckptStep : Nat) (clr : Int) (ngroups warmup : Nat) : OptRestoreResult :=
  { optimizerLoaded := !noam && optLoadOk
    initial_lrs := List.replicate ngroups clr
    restore_step := ckptStep
    scheduler := if noam then some ⟨warmup, (ckptStep : Int) - 1⟩ else none }

/-- Claim C9: on restore, the checkpoint's optimizer state is loaded only
when `noam_schedule` is disabled; with `noam_schedule` enabled the
optimizer keeps its fresh state; in every restore case each of the
optimizer's param groups has its `initial_lr` reset to the configured
learning rate; and when the Noam scheduler is used it is constructed with
`last_epoch` equal to the restored step minus one (and is absent
otherwise). -/
theorem optimizer_restore_respects_noam_schedule (noam optLoadOk : Bool)
    (ckptStep : Nat) (clr : Int) (ngroups warmup : Nat) :
    ((mainOptimizerRestore noam optLoadOk ckptStep clr ngroups warmup).optimizerLoaded
        = true → noam = false) ∧
    (noam = true →
      (mainOptimizerRestore noam optLoadOk ckptStep clr ngroups warmup).optimizerLoaded
        = false) ∧
    (mainOptimizerRestore noam optLoadOk ckptStep clr ngroups warmup).initial_lrs.length
        = ngroups ∧
    (∀ x ∈ (mainOptimizerRestore noam optLoadOk ckptStep clr ngroups warmup).initial_lrs,
        x = clr) ∧
    (mainOptimizerRestore noam optLoadOk ckptStep clr ngroups warmup).restore_step
        = ckptStep ∧
    (mainOptimizerRestore noam optLoadOk ckptStep clr ngroups warmup).scheduler
        = (if noam then some ⟨warmup, (ckptStep : Int) - 1⟩ else none) := by
  refine ⟨?_, ?_, ?_, ?_, rfl, rfl⟩
  · intro h
    cases noam with
    | false => rfl
    | true => simp [mainOptimizerRestore] at h
  · intro h
    subst h
    simp [mainOptimizerRestore]
  · simp [mainOptimizerRestore]
  · intro x hx
    simp only [mainOptimizerRestore] at hx
    exact List.eq_of_mem_replicate hx

/-- Witness for `optimizer_restore_respects_noam_schedule` at a concrete
restore with the Noam schedule enabled: fresh optimizer state and the
scheduler resuming at step 42 - 1. -/
theorem optimizer_restore_witness :
    (mainOptimizerRestore true true 42 3 2 4000).optimizerLoaded = false ∧
    (mainOptimizerRestore true true 42 3 2 4000).scheduler
      = (if true then some ⟨4000, (42 : Int) - 1⟩ else none) :=
  ⟨(optimizer_restore_respects_noam_schedule true true 42 3 2 4000).2.1 rfl,
   (optimizer_restore_respects_noam_schedule true true 42 3 2 4000).2.2.2.2.2⟩

/-- The trainable parameters of one `Decoder` instance, abstracted as a
list of values. -/
structure DecoderParams where
  ps : List Int
deriving DecidableEq, Repr

/-- The fields of `Tacotron` that the bidirectional-decoder claims touch
(models/tacotron.py lines 39, 50-56). -/
structure TacotronModel where
  bidirectional_decoder : Bool
  decoder : DecoderParams
  decoder_backward : Option DecoderParams
deriving DecidableEq, Repr

/-- `Tacotron.__init__` (models/tacotron.py lines 50-56): the backward
decoder exists only under `bidirectional_decoder`, created by
`copy.deepcopy(self.decoder)` — a value copy into independently owned
storage. -/
def tacotronInit (bidir : Bool) (dec : DecoderParams) : TacotronModel :=
  { bidirectional_decoder := bidir
    decoder := dec
    decoder_backward := if bidir then some dec else none }

/-- A gradient update touching parameter `i` of the forward decoder.  In
the shallow embedding, aliasing of trainable parameters would show up as
this update also changing `decoder_backward`. -/
def updateDecoderParam (m : TacotronModel) (i : Nat) (v : Int) : TacotronModel :=
  { m with decoder := ⟨m.decoder.ps.set i v⟩ }

/-- A gradient update touching parameter `i` of the backward decoder. -/
def updateBackwardParam (m : TacotronModel) (i : Nat) (v : Int) : TacotronModel :=
  { m with decoder_backward := m.decoder_backward.map (fun d => ⟨d.ps.set i v⟩) }

/-- The decoder invocations `Tacotron.forward` / `Tacotron.inference` can
make, recording which parameter set runs on which mel input. -/
inductive TacCall
  | decForward (params : DecoderParams) (mel : List Int)
  | decBackward (params : DecoderParams) (mel : List Int)
  | decInference (params : DecoderParams)
  | missingBackwardAttr
deriving DecidableEq, Repr

/-- `Tacotron.forward` (models/tacotron.py lines 87-128): the forward
decoder consumes the mel target; under `bidirectional_decoder`,
`_backward_inference` (lines 154-159) additionally runs `decoder_backward`
on `torch.flip(mel_specs, dims=(1,))` — the time-reversed target — and the
method returns six outputs (the four forward outputs plus the backward
decoder outputs and alignments) instead of four.  The mel target is
embedded as its list of frames; the returned `Nat` is the number of
outputs. -/
def tacotronForwardCalls (m : TacotronModel) (mel : List Int) : List TacCall × Nat :=
  if m.bidirectional_decoder then
    match m.decoder_backward with
    | some db => ([.decForward m.decoder mel, .decBackward db mel.reverse], 6)
    | none => ([.decForward m.decoder mel, .missingBackwardAttr], 6)
  else ([.decForward m.decoder mel], 4)

/-- `Tacotron.inference` (models/tacotron.py lines 130-152): only
`self.decoder.inference` runs; `decoder_backward` is never touched. -/
def tacotronInferenceCalls (m : TacotronModel) : List TacCall :=
  [.decInference m.decoder]

/-- Claim C6: with `bidirectional_decoder` enabled, construction deep-copies
the decoder (the backward decoder starts equal to the forward one), updates
to the forward decoder's parameters never reach the backward decoder and
vice versa (no aliasing), `forward` runs the backward decoder on the
time-reversed mel target and returns six outputs instead of four, and
`inference` never invokes the backward decoder. -/
theorem bidirectional_decoder_deep_copy_and_train_only
    (d : DecoderParams) (mel : List Int) (i : Nat) (v : Int) :
    (tacotronInit true d).decoder_backward = some d ∧
    (updateDecoderParam (tacotronInit true d) i v).decoder_backward = some d ∧
    (updateBackwardParam (tacotronInit true d) i v).decoder = d ∧
    tacotronForwardCalls (tacotronInit true d) mel
      = ([TacCall.decForward d mel, TacCall.decBackward d mel.reverse], 6) ∧
    tacotronForwardCalls (tacotronInit false d) mel
      = ([TacCall.decForward d mel], 4) ∧
    (∀ m : TacotronModel, ∀ p : DecoderParams, ∀ q : List Int,
      TacCall.decBackward p q ∉ tacotronInferenceCalls m) := by
  refine ⟨rfl, rfl, rfl, ?_, ?_, ?_⟩
  · simp [tacotronInit, tacotronForwardCalls]
  · simp [tacotronInit, tacotronForwardCalls]
  · intro m p q
    simp [tacotronInferenceCalls]

/-- What a projected speaker embedding records about how it was computed:
`speaker_project_mel` applied either to the concatenation of the GST
embedding and the speaker embedding, or to the speaker embedding alone
(models/tacotron.py lines 107-112 and 140-145).  The numeric content of the
projection is kept symbolic; the claims only concern whether a projection
is present. -/
inductive ProjEmb
  | projGst (spkEmb : Int) (styleSrc : Int)
  | projPlain (spkEmb : Int)
deriving DecidableEq, Repr

/-- The two mutable speaker fields of `Tacotron`. -/
structure TacSpkState where
  speaker_embeddings : Option Int
  speaker_embeddings_projected : Option ProjEmb
deriving DecidableEq, Repr

/-- `Tacotron._init_states` (models/tacotron.py lines 77-79): both fields
are set to `None`, whatever they held. -/
def init_states (_s : TacSpkState) : TacSpkState := ⟨none, none⟩

/-- `Tacotron.forward` (models/tacotron.py lines 87-118) restricted to the
speaker-embedding state: it calls `self._init_states()` first, then sets
`speaker_embeddings_projected` only inside
`if speaker_embeddings is not None`, and passes
`self.speaker_embeddings_projected` to the decoder.  Returns the state
after the call and the value passed to the decoder; `mel` is the mel input
feeding the GST branch. -/
def tacForward (gst : Bool) (s : TacSpkState) (spkEmb : Option Int) (mel : Int) :
    TacSpkState × Option ProjEmb :=
  let s1 := init_states s
  let s2 := match spkEmb with
    | none => s1
    | some e =>
        let pe := if gst then ProjEmb.projGst e mel else ProjEmb.projPlain e
        { s1 with speaker_embeddings_projected := some pe }
  (s2, s2.speaker_embeddings_projected)

/-- `Tacotron.inference` (models/tacotron.py lines 130-152) restricted to
the speaker-embedding state: `self._init_states()` runs before any use of
the fields, `speaker_embeddings_projected` is set only inside
`if speaker_embedding is not None` (with the GST branch also requiring a
style input), and `self.speaker_embeddings_projected` is passed to
`decoder.inference`. -/
def tacInference (gst : Bool) (s : TacSpkState) (spkEmb : Option Int)
    (styleMel : Option Int) : TacSpkState × Option ProjEmb :=
  let s1 := init_states s
  let s2 := match spkEmb with
    | none => s1
    | some e =>
        match (if gst then styleMel else none) with
        | some sm => { s1 with speaker_embeddings_projected := some (ProjEmb.projGst e sm) }
        | none => { s1 with speaker_embeddings_projected := some (ProjEmb.projPlain e) }
  (s2, s2.speaker_embeddings_projected)

/-- Claim C10: `forward` and `inference` reset both speaker fields to
`None` before using them, so a call without speaker embeddings (and, for
inference, regardless of any style input) passes `None` as the projected
speaker embedding to the decoder, and the outcome of either method is
entirely independent of whatever an earlier call on the same instance left
in the fields. -/
theorem speaker_state_reset_on_every_call
    (gst : Bool) (s sPrev : TacSpkState) (spkEmb : Option Int) (mel : Int)
    (styleMel : Option Int) :
    init_states s = ⟨none, none⟩ ∧
    (tacForward gst s none mel).2 = none ∧
    (tacForward gst s none mel).1 = ⟨none, none⟩ ∧
    (tacInference gst s none styleMel).2 = none ∧
    (tacInference gst s none styleMel).1 = ⟨none, none⟩ ∧
    tacForward gst s spkEmb mel = tacForward gst sPrev spkEmb mel ∧
    tacInference gst s spkEmb styleMel = tacInference gst sPrev spkEmb styleMel := by
  exact ⟨rfl, rfl, rfl, rfl, rfl, rfl, rfl⟩
